import Mathlib

/-!
Verification of the test-execution and output-verification harness of
`oj-problem` (package `onlinejudge_command`), against its natural-language
specification.  The shallow embedding below translates the relevant parts of
`onlinejudge_command/subcommand/test.py`, `onlinejudge_command/format_utils.py`
and `onlinejudge_command/utils.py` into Lean.  Byte strings are `List Nat`,
Python `float` values that are only ever compared (memory, limits, tolerances)
are `ℚ`, external processes are parameters of the embedding.

The comparator classes live in `onlinejudge_command/output_comparators.py`,
which is part of this repository but not shipped in the sources at hand; those
definitions are modelled from the specification (section 4.2) and are marked
`Modelled from the spec:` in their doc comments.
-/

/-- Byte strings: Python `bytes` values, one `Nat` (0..255) per byte. -/
abbrev Bytes := List Nat

/-- Python`s ASCII whitespace as used by `bytes.strip` / `bytes.rstrip`:
tab 9, LF 10, VT 11, FF 12, CR 13 and space 32. -/
def isSpaceB (b : Nat) : Bool :=
  b == 9 || b == 10 || b == 11 || b == 12 || b == 13 || b == 32

/-- Python `bytes.lstrip()`: drop leading ASCII whitespace. -/
def lstripB (s : Bytes) : Bytes :=
  s.dropWhile isSpaceB

/-- Python `bytes.rstrip()`: drop trailing ASCII whitespace
(`expected.rstrip()` and `answer.rstrip()` in `run_checking_output`,
`test.py` lines 187-189). -/
def rstripB (s : Bytes) : Bytes :=
  List.rdropWhile isSpaceB s

/-- Python `bytes.strip()`: drop whitespace on both ends
(`actual.strip()` and `expected.strip()` in `compare_outputs`,
`test.py` lines 151-152). -/
def stripB (s : Bytes) : Bytes :=
  lstripB (rstripB s)

theorem rstripB_rstripB (s : Bytes) : rstripB (rstripB s) = rstripB s :=
  List.rdropWhile_idempotent _ _

theorem stripB_rstripB (s : Bytes) : stripB (rstripB s) = stripB s := by
  unfold stripB
  rw [rstripB_rstripB]

theorem rstripB_eq_nil_iff {s : Bytes} :
    rstripB s = [] ↔ ∀ b ∈ s, isSpaceB b = true :=
  List.rdropWhile_eq_nil_iff

theorem mem_rstripB {s : Bytes} {b : Nat} (h : b ∈ rstripB s) : b ∈ s := by
  unfold rstripB List.rdropWhile at h
  rw [List.mem_reverse] at h
  have hsub : List.Sublist (List.dropWhile isSpaceB s.reverse) s.reverse :=
    List.dropWhile_sublist _
  have := hsub.subset h
  rwa [List.mem_reverse] at this

theorem stripB_eq_nil_iff {s : Bytes} :
    stripB s = [] ↔ ∀ b ∈ s, isSpaceB b = true := by
  unfold stripB lstripB
  rw [List.dropWhile_eq_nil_iff]
  constructor
  · intro h b hb
    have hrev : b ∈ s.reverse := by rwa [List.mem_reverse]
    rcases (List.mem_append).1
        (by rw [List.takeWhile_append_dropWhile (p := isSpaceB) (l := s.reverse)]; exact hrev) with
        htake | hdrop
    · exact List.mem_takeWhile_imp htake
    · refine h b ?_
      unfold rstripB List.rdropWhile
      rwa [List.mem_reverse]
  · intro h b hb
    exact h b (mem_rstripB hb)

theorem rstripB_eq_nil_iff_stripB {s : Bytes} :
    rstripB s = [] ↔ stripB s = [] := by
  rw [rstripB_eq_nil_iff, stripB_eq_nil_iff]

/-- Modelled from the spec: `output_comparators.py` is not among the sources;
spec 4.2 "`ExactComparator`: byte-for-byte equality". -/
def exactComparator (actual expected : Bytes) : Bool :=
  actual == expected

/-- Modelled from the spec: `output_comparators.py` is not among the sources;
spec 4.2 "`CRLFInsensitiveComparator(inner)`: normalizes CRLF to LF before
delegating".  This is the normalization itself, rewriting every 13-10 byte
pair to 10. -/
def normCRLF : Bytes → Bytes
  | 13 :: 10 :: rest => 10 :: normCRLF rest
  | b :: rest => b :: normCRLF rest
  | [] => []

/-- Modelled from the spec: the CRLF-insensitive wrapper delegates to `inner`
after normalizing both sides. -/
def crlfInsensitiveComparator (inner : Bytes → Bytes → Bool) (actual expected : Bytes) : Bool :=
  inner (normCRLF actual) (normCRLF expected)

/-- Modelled from the spec: `output_comparators.py` is not among the sources;
spec 4.2 "`SplitComparator(inner)`: splits on arbitrary whitespace into
tokens".  Accumulator-based tokenizer; `acc` holds the current token reversed. -/
def splitWSAux : Bytes → Bytes → List Bytes
  | [], acc => if acc = [] then [] else [acc.reverse]
  | b :: rest, acc =>
      if isSpaceB b then
        if acc = [] then splitWSAux rest []
        else acc.reverse :: splitWSAux rest []
      else splitWSAux rest (b :: acc)

/-- Modelled from the spec: whitespace tokenization for `SplitComparator`. -/
def splitWS (s : Bytes) : List Bytes :=
  splitWSAux s []

/-- Modelled from the spec: "`SplitComparator(inner)`: splits on arbitrary
whitespace into tokens, requires same token count, compares tokens
independently". -/
def splitComparator (inner : Bytes → Bytes → Bool) (actual expected : Bytes) : Bool :=
  let ta := splitWS actual
  let te := splitWS expected
  ta.length == te.length && (ta.zip te).all fun p => inner p.1 p.2

/-- Modelled from the spec: line splitting for `SplitLinesComparator`;
"trailing blank-line differences are tolerated per line-splitting semantics",
so trailing newline bytes are dropped before splitting on LF. -/
def splitLinesB (s : Bytes) : List Bytes :=
  (List.rdropWhile (fun b => b == 10) s).splitOn 10

/-- Modelled from the spec: "`SplitLinesComparator(inner)`: splits both sides
into lines, requires same line count, each line compared independently by
`inner`". -/
def splitLinesComparator (inner : Bytes → Bytes → Bool) (actual expected : Bytes) : Bool :=
  let la := splitLinesB actual
  let le := splitLinesB expected
  la.length == le.length && (la.zip le).all fun p => inner p.1 p.2

/-- Modelled from the spec: numeric parsing for
`FloatingPointNumberComparator` ("parses both tokens as numbers").  A token is
an optional sign, a digit run, and an optional fractional digit run; the value
is returned as an exact rational. -/
def allDigits (l : Bytes) : Bool :=
  l.all fun b => 48 ≤ b && b ≤ 57

/-- Digit run to number, most significant first. -/
def digitsToNat (l : Bytes) : Nat :=
  l.foldl (fun acc b => acc * 10 + (b - 48)) 0

/-- Modelled from the spec: parse a decimal token, `none` when the token is
not a number. -/
def parseNumber (tok : Bytes) : Option ℚ :=
  let signed : ℚ × Bytes :=
    match tok with
    | 45 :: r => (-1, r)
    | 43 :: r => (1, r)
    | r => (1, r)
  match (signed.2).splitOn 46 with
  | [intPart] =>
      if intPart ≠ [] ∧ allDigits intPart then some (signed.1 * digitsToNat intPart)
      else none
  | [intPart, fracPart] =>
      if intPart ≠ [] ∧ fracPart ≠ [] ∧ allDigits intPart ∧ allDigits fracPart then
        some (signed.1 * ((digitsToNat intPart : ℚ) + (digitsToNat fracPart : ℚ) / 10 ^ fracPart.length))
      else none
  | _ => none

/-- Modelled from the spec: "`FloatingPointNumberComparator(rel_tol, abs_tol)`:
parses both tokens as numbers; accepts if within relative OR absolute
tolerance; if either token fails to parse as a number, falls back to exact
string equality."  Real arithmetic is carried out in `ℚ`. -/
def floatingPointNumberComparator (rel_tol abs_tol : ℚ) (actual expected : Bytes) : Bool :=
  match parseNumber actual, parseNumber expected with
  | some x, some y => decide (|x - y| ≤ abs_tol) || decide (|x - y| ≤ rel_tol * max |x| |y|)
  | _, _ => actual == expected

/-- Compare modes of `output_comparators.CompareMode`, as listed by the
`--compare-mode` choices in `test.py` line 41. -/
inductive CompareMode
  | exact_match
  | crlf_insensitive_exact_match
  | ignore_spaces
  | ignore_spaces_and_newlines
deriving DecidableEq

/-- Verdicts, `test.py` lines 213-218 (`class JudgeStatus`). -/
inductive JudgeStatus
  | AC
  | WA
  | RE
  | TLE
  | MLE
deriving DecidableEq

/-- Result of one external judge process: its exit code and what it printed.
The process itself is outside the embedding; a judge is modelled as a function
from its command-line arguments and the bytes stored in the actual-output file
to such a result. -/
structure JudgeResult where
  exitcode : Int
  output : Bytes
deriving DecidableEq

/-- Argument list built by `SpecialJudge.run`, `test.py` lines 91-96: the
judge command is invoked with the input path, the path of a fresh temporary
file holding the actual output, and the expected-output path or the empty
string when there is none. -/
def special_judge_args (input_path actual_output_path : String) (expected_output_path : Option String) : List String :=
  [input_path, actual_output_path, expected_output_path.getD ""]

/-- `SpecialJudge.run`, `test.py` lines 84-102: write the actual output to a
temporary file, invoke the judge with the three positional arguments, log (but
never parse) the judge's own output, and report a match exactly when the
judge's exit code is 0 (line 102). -/
def special_judge_run (judge_process : List String → Bytes → JudgeResult)
    (input_path : String) (actual_output : Bytes) (actual_output_path : String)
    (expected_output_path : Option String) : Bool :=
  (judge_process (special_judge_args input_path actual_output_path expected_output_path)
      actual_output).exitcode == 0

/-- `compare_outputs` inside `build_match_function`, `test.py` lines 144-167:
an empty expected output is rejected outright (lines 146-148); otherwise both
sides are stripped of leading and trailing whitespace (lines 151-152) and the
selected file comparator decides (line 155).  Lines 157-166 only emit log
hints and never change the result. -/
def compare_outputs (file_comparator : Bytes → Bytes → Bool) (actual expected : Bytes) : Bool :=
  if expected = [] then false
  else file_comparator (stripB actual) (stripB expected)

/-- Comparator selection of `build_match_function`, `test.py` lines 124-142:
exact and CRLF-insensitive exact modes without a float tolerance use the bare
(or CRLF-wrapped) `ExactComparator`; every other combination builds a word
comparator (float-tolerance or exact), wraps it in `SplitComparator`, adds
`SplitLinesComparator` for the line-preserving modes, and finally wraps the
whole comparator in `CRLFInsensitiveComparator` (line 142). -/
def build_file_comparator (compare_mode : CompareMode) (error : Option ℚ) : Bytes → Bytes → Bool :=
  match compare_mode, error with
  | CompareMode.exact_match, none => exactComparator
  | CompareMode.crlf_insensitive_exact_match, none => crlfInsensitiveComparator exactComparator
  | mode, err =>
      let word_comparator : Bytes → Bytes → Bool :=
        match err with
        | some e => floatingPointNumberComparator e e
        | none => exactComparator
      let file_comparator : Bytes → Bytes → Bool :=
        match mode with
        | CompareMode.ignore_spaces_and_newlines => splitComparator word_comparator
        | _ => splitLinesComparator (splitComparator word_comparator)
      crlfInsensitiveComparator file_comparator

/-- `build_match_function`, `test.py` lines 105-169.  When a judge command is
configured the returned function runs the special judge on the test input path
and the actual output, ignoring its second argument (lines 111-122); otherwise
it is `compare_outputs` over the comparator selected by mode and tolerance. -/
def build_match_function (judge : Option (List String → Bytes → JudgeResult))
    (compare_mode : CompareMode) (error : Option ℚ)
    (test_input_path : String) (test_output_path : Option String)
    (actual_output_path : String) : Bytes → Bytes → Bool :=
  match judge with
  | some j => fun actual _expected =>
      special_judge_run j test_input_path actual actual_output_path test_output_path
  | none => compare_outputs (build_file_comparator compare_mode error)

/-- `run_checking_output`, `test.py` lines 172-210, with the expected-output
file abstracted to its contents (`none` = no file).  Without a file and
without a special judge the comparison is skipped (`None`, lines 178-180);
with a file, both the file contents and the answer are right-stripped and the
match function decides (lines 182-199); with a judge but no file the judge is
called on the raw answer against empty bytes (lines 203-210). -/
def run_checking_output (answer : Bytes) (expected_contents : Option Bytes)
    (is_special_judge : Bool) (match_function : Bytes → Bytes → Bool) : Option Bool :=
  if expected_contents = none ∧ is_special_judge = false then none
  else
    match expected_contents with
    | some contents => some (match_function (rstripB answer) (rstripB contents))
    | none => if is_special_judge then some (match_function answer []) else some false

/-- Memory check of `display_result`, `test.py` line 245:
`memory is not None and mle is not None and memory > mle`. -/
def memExceeds (memory mle : Option ℚ) : Bool :=
  match memory, mle with
  | some m, some l => decide (l < m)
  | _, _ => false

/-- `display_result`, `test.py` lines 238-287, restricted to the verdict it
returns.  The base status is decided by the first matching branch of the
`if`/`elif` chain (TLE when the process has no return code, line 240; MLE on a
memory violation, line 245; RE on a nonzero return code, line 250; otherwise
AC); afterwards, whenever a comparison was performed and failed, the status is
overwritten with WA (lines 257-260; the assignment at line 260 sits outside
the `if status == JudgeStatus.AC` guard). -/
def display_result (returncode : Option Int) (memory mle : Option ℚ)
    (match_result : Option Bool) : JudgeStatus :=
  let status : JudgeStatus :=
    if returncode = none then JudgeStatus.TLE
    else if memExceeds memory mle then JudgeStatus.MLE
    else if returncode ≠ some 0 then JudgeStatus.RE
    else JudgeStatus.AC
  if match_result = some false then JudgeStatus.WA else status

/-- Status computation of `test_single_case`, `test.py` lines 343-351: when
the comparison was skipped because there is no expected-output file and no
special judge, the status is set to `JudgeStatus.AC` directly (line 349) and
`display_result` is not called; otherwise `display_result` decides. -/
def test_single_case_status (returncode : Option Int) (memory : Option ℚ)
    (expected_contents : Option Bytes) (judge_configured : Bool) (mle : Option ℚ)
    (match_result : Option Bool) : JudgeStatus :=
  if match_result = none ∧ expected_contents = none ∧ judge_configured = false then
    JudgeStatus.AC
  else
    display_result returncode memory mle match_result

/-- One case end to end: `run_checking_output` chained into the status logic
of `test_single_case` (`test.py` lines 343-351). -/
def evaluate_case (match_function : Bytes → Bytes → Bool) (answer : Bytes)
    (expected_contents : Option Bytes) (judge_configured : Bool)
    (returncode : Option Int) (memory mle : Option ℚ) : JudgeStatus :=
  test_single_case_status returncode memory expected_contents judge_configured mle
    (run_checking_output answer expected_contents judge_configured match_function)

/-- Exit code of `run`, `test.py`: no collected tests abort with 1 before any
case runs (lines 514-516); afterwards the exit code is 1 unless the AC count
equals the number of cases, in which case it is 0 (lines 563-573). -/
def run_exit_code (history : List JudgeStatus) : Nat :=
  if history.isEmpty then 1
  else
    if history.countP (fun s => s == JudgeStatus.AC) ≠ history.length then 1
    else 0

/-- Sequential test loop of `run`, `test.py` lines 530-532: every collected
case is evaluated exactly once, in order, and contributes one history entry. -/
def run_tests {α : Type} (eval_one : α → JudgeStatus) (tests : List α) : List JudgeStatus :=
  tests.map eval_one

/-- Extensions recognized by `match_with_format` (`format_utils.py` line 118,
regular expression `in|out|ans`). -/
inductive FileExt
  | fin
  | fout
  | fans
deriving DecidableEq

/-- A globbed test-case file, reduced to what the `%s.%e` format recovers from
its path: the case name and the extension. -/
structure TestFile where
  name : String
  ext : FileExt
deriving DecidableEq

/-- Python string comparison (code-point lexicographic), used by
`sorted(tests.items())`. -/
def nameLe (a b : String) : Prop :=
  a.data ≤ b.data

instance : DecidableRel nameLe :=
  fun a b => (inferInstance : Decidable (a.data ≤ b.data))

/-- Case names in dictionary insertion order; `tests` in `glob_with_format`
is a `defaultdict` filled in glob order (`format_utils.py` lines 75-81). -/
def testFileNames (files : List TestFile) : List String :=
  (files.map TestFile.name).dedup

/-- Files grouped under one case name. -/
def filesNamed (files : List TestFile) (n : String) : List TestFile :=
  files.filter fun f => f.name == n

/-- `glob_with_format`, `format_utils.py` lines 50-110: group the globbed
files by case name, iterate the names in sorted order (line 87), drop —
with only a warning — every case that has no `.in` file (lines 92-94), and
put the input file first in the path list of each surviving case (the
`sorted_paths.insert(0, p)` loop, lines 100-105). -/
def glob_with_format (files : List TestFile) : List (String × List TestFile) :=
  ((testFileNames files).insertionSort nameLe).filterMap fun n =>
    if ((filesNamed files n).filter fun f => f.ext == FileExt.fin).isEmpty then none
    else
      some (n, ((filesNamed files n).filter fun f => f.ext == FileExt.fin).reverse ++
        ((filesNamed files n).filter fun f => !(f.ext == FileExt.fin)))

/-- Grouping step of `construct_relationship_of_files`,
`format_utils.py` lines 149-171: group
by name, abort with `sys.exit(1)` and a dangling-case message for the first
name without an input file (lines 160-166), abort when no cases were found at
all (lines 167-169), and otherwise return the grouping. -/
def constructGroups (files : List TestFile) : List (String × List TestFile) :=
  (testFileNames files).map fun n => (n, filesNamed files n)

/-- Error handling of `construct_relationship_of_files` over the grouping
above: abort on the first dangling case, abort when empty, else return. -/
def construct_relationship_of_files (files : List TestFile) :
    Except String (List (String × List TestFile)) :=
  let groups := constructGroups files
  match groups.find? (fun g => !(g.2.any fun f => f.ext == FileExt.fin)) with
  | some g =>
      Except.error (if g.2.any (fun f => f.ext == FileExt.fout) then "dangling output case"
        else "dangling answer case")
  | none =>
      if groups.isEmpty then Except.error "no cases found"
      else Except.ok groups

/-- Test collection of `run` for one scanned directory, `test.py` lines
470-499: for each case produced by `glob_with_format`, the first path is
taken as the input file (line 484) and the first later path with an `.out` or
`.ans` suffix as the expected-output file (lines 487-492); cases with an empty
path list are skipped (lines 479-481). -/
def run_collect_tests (files : List TestFile) :
    List (String × TestFile × Option TestFile) :=
  (glob_with_format files).filterMap fun t =>
    match t.2 with
    | [] => none
    | input :: rest =>
        some (t.1, input, rest.find? fun p => p.ext == FileExt.fout || p.ext == FileExt.fans)

/-- End-to-end exit code of `run` on one directory: collect the cases
(`test.py` lines 470-499), bail out with 1 when none were found (lines
514-516), evaluate every case (lines 530-532) and summarize (lines 563-573).
`eval_one` abstracts the verdict each collected case receives. -/
def run_exit_for (files : List TestFile)
    (eval_one : String × TestFile × Option TestFile → JudgeStatus) : Nat :=
  run_exit_code (run_tests eval_one (run_collect_tests files))

/-- A dangling fixture: the name occurs among the globbed files but has no
input file. -/
def isDangling (files : List TestFile) (n : String) : Bool :=
  (files.any fun f => f.name == n) &&
    !(files.any fun f => f.name == n && f.ext == FileExt.fin)

/-- Outcome of one `utils.exec_command` call as far as control flow is
concerned: either the child ran (with the memory the probe reported, `none`
when no probe was configured), or the whole harness died through
`sys.exit(1)` (`utils.py` lines 110-116, `FileNotFoundError`/
`PermissionError` on `Popen`). -/
inductive ExecOutcome
  | ran (memory : Option ℚ)
  | fatalExit (code : Nat)
deriving DecidableEq

/-- Probe selection in `run`, `test.py` lines 520-526: the LOCAL variable
`gnu_time` is cleared when `check_gnu_time` fails. -/
def run_local_gnu_time (args_gnu_time : String) (check_ok : Bool) : Option String :=
  if check_ok then some args_gnu_time else none

/-- The probe each case actually uses: `test_single_case` passes
`args.gnu_time` to `exec_command` (`test.py` line 307), which `run` never
cleared — the cleared value lives only in the local variable above. -/
def case_gnu_time (args_gnu_time : String) (_check_ok : Bool) : Option String :=
  some args_gnu_time

/-- Control flow of `utils.exec_command` (lines 87-144) for the memory probe:
without a probe the command runs and memory stays `none`; with a probe the
child is spawned as `[gnu_time, '-f', '%M', ...]`, so a missing probe binary
raises `FileNotFoundError` and `sys.exit(1)`s the harness (lines 110-113). -/
def exec_command_outcome (gnu_time : Option String) (binary_available : String → Bool)
    (measured : Option ℚ) : ExecOutcome :=
  match gnu_time with
  | none => ExecOutcome.ran none
  | some t => if binary_available t then ExecOutcome.ran measured else ExecOutcome.fatalExit 1

theorem run_checking_output_some (answer contents : Bytes) (j : Bool)
    (m : Bytes → Bytes → Bool) :
    run_checking_output answer (some contents) j m =
      some (m (rstripB answer) (rstripB contents)) := by
  unfold run_checking_output
  simp

theorem compare_outputs_rstrip (cmp : Bytes → Bytes → Bool) (a c : Bytes) :
    compare_outputs cmp (rstripB a) (rstripB c) =
      if stripB c = [] then false else cmp (stripB a) (stripB c) := by
  unfold compare_outputs
  by_cases h : stripB c = []
  · rw [if_pos (rstripB_eq_nil_iff_stripB.mpr h), if_pos h]
  · rw [if_neg (fun hr => h (rstripB_eq_nil_iff_stripB.mp hr)), if_neg h,
      stripB_rstripB, stripB_rstripB]

theorem build_match_function_none (mode : CompareMode) (err : Option ℚ)
    (ip tp : String) (op : Option String) :
    build_match_function none mode err ip op tp =
      compare_outputs (build_file_comparator mode err) :=
  rfl

/-- C1 counterexample: a timed-out process (no return code) whose captured
output fails the comparison gets verdict WA, not TLE — the WA override in
`display_result` (`test.py` line 260) beats the TLE branch, so the claimed
priority order with TLE first does not hold. -/
theorem timed_out_mismatch_gives_wa :
    display_result none none none (some false) = JudgeStatus.WA ∧
      JudgeStatus.WA ≠ JudgeStatus.TLE := by
  constructor
  · rfl
  · decide

/-- C1, amended: for a timed-out case, the verdicts TLE/MLE/RE are indeed
mutually prioritized with TLE first, but a failed comparison overrides them
all to WA; a timed-out case is TLE exactly when its comparison result is not
`false` (matched, or no comparison performed). -/
theorem timed_out_verdict_characterization (memory mle : Option ℚ) (mr : Option Bool) :
    display_result none memory mle mr =
      (if mr = some false then JudgeStatus.WA else JudgeStatus.TLE) := by
  unfold display_result
  simp

/-- C2: with no expected-output file and no special judge, the comparison is
skipped (`run_checking_output` returns `None`) but `test_single_case` then
sets the status to AC (`test.py` line 349) — for any return code — and the
summary counts the case as a pass (exit code 0).  The claim (and the code's
own comment at lines 345-348) requires a distinct Unknown verdict instead. -/
theorem missing_expected_output_counted_ac (m : Bytes → Bytes → Bool)
    (answer : Bytes) (returncode : Option Int) (memory mle : Option ℚ) :
    run_checking_output answer none false m = none ∧
      evaluate_case m answer none false returncode memory mle = JudgeStatus.AC ∧
      run_exit_code [evaluate_case m answer none false returncode memory mle] = 0 := by
  refine ⟨rfl, rfl, ?_⟩
  rfl

/-- C3: when `check_gnu_time` fails, `run` clears only its local variable
(`test.py` line 523) while `test_single_case` keeps passing the original
`args.gnu_time` to `exec_command` (line 307); with the probe binary missing
(the typical reason for the failed check) the spawn raises
`FileNotFoundError` and the harness exits 1 on the first case, instead of
running every case with `memory = None`. -/
theorem failed_probe_still_passed_to_exec :
    run_local_gnu_time "time" false = none ∧
      case_gnu_time "time" false = some "time" ∧
      exec_command_outcome (case_gnu_time "time" false) (fun _ => false) none =
        ExecOutcome.fatalExit 1 ∧
      ExecOutcome.fatalExit 1 ≠ ExecOutcome.ran none := by
  refine ⟨rfl, rfl, rfl, ?_⟩
  intro h
  exact ExecOutcome.noConfusion h

/-- C4 counterexample: under `exact-match` with no tolerance and no judge, the
actual output "x\n" is accepted against the expected output "x" although the
two are not byte-for-byte equal — both sides are whitespace-stripped before
`ExactComparator` runs (`run_checking_output` lines 187-189 and
`compare_outputs` lines 151-152). -/
theorem exact_match_accepts_stripped_difference :
    run_checking_output [120, 10] (some [120]) false
        (build_match_function none CompareMode.exact_match none "in" (some "ans") "tmp") =
      some true ∧
      ([120, 10] : Bytes) ≠ [120] := by
  constructor
  · rfl
  · decide

/-- C4, amended: under `exact-match` (no float tolerance, no special judge)
the comparison accepts iff the expected output still contains a
non-whitespace byte and the two outputs are byte-for-byte equal after
stripping leading and trailing whitespace from both sides. -/
theorem exact_match_accepts_iff_stripped_equal (a c : Bytes) (ip tp : String)
    (op : Option String) :
    run_checking_output a (some c) false
        (build_match_function none CompareMode.exact_match none ip op tp) =
      some (!(stripB c == []) && (stripB a == stripB c)) := by
  rw [run_checking_output_some, build_match_function_none]
  have hb : build_file_comparator CompareMode.exact_match none = exactComparator := rfl
  rw [hb, compare_outputs_rstrip]
  by_cases h : stripB c = []
  · simp [h, exactComparator]
  · simp [h, exactComparator]

/-- C5 counterexample: a directory holding only `a.ans` and `b.in` — `a` is a
dangling fixture.  `glob_with_format` drops case `a` (with a warning,
`format_utils.py` lines 92-94) instead of aborting, and when the surviving
case `b` is AC the whole run exits 0, not nonzero as the claim requires. -/
theorem dangling_fixture_dropped_without_abort :
    glob_with_format [TestFile.mk "a" FileExt.fans, TestFile.mk "b" FileExt.fin] =
        [("b", [TestFile.mk "b" FileExt.fin])] ∧
      run_exit_for [TestFile.mk "a" FileExt.fans, TestFile.mk "b" FileExt.fin]
        (fun _ => JudgeStatus.AC) = 0 := by
  constructor
  · decide
  · decide

/-- C5, amended: a dangling fixture (a case name with an output/answer file
but no input file) is reported with a warning and excluded by
`glob_with_format`, the discovery the `test` subcommand actually uses — the
run then continues with the remaining cases; the separate helper
`construct_relationship_of_files`, unused by the `test` subcommand, does
abort with an error on such a directory. -/
theorem dangling_fixture_skipped_and_helper_aborts (files : List TestFile) (n : String)
    (hd : isDangling files n = true) :
    (∀ paths, (n, paths) ∉ glob_with_format files) ∧
      (∃ msg, construct_relationship_of_files files = Except.error msg) := by
  unfold isDangling at hd
  rw [Bool.and_eq_true, Bool.not_eq_true'] at hd
  obtain ⟨h1, h2⟩ := hd
  have hno_input : ∀ f ∈ files, f.name = n → f.ext ≠ FileExt.fin := by
    intro f hf hname hext
    have : files.any (fun f => f.name == n && f.ext == FileExt.fin) = true := by
      rw [List.any_eq_true]
      exact ⟨f, hf, by rw [hname, hext]; simp⟩
    rw [h2] at this
    exact Bool.false_ne_true this
  constructor
  · intro paths hmem
    unfold glob_with_format at hmem
    rw [List.mem_filterMap] at hmem
    obtain ⟨m, _hm, heq⟩ := hmem
    by_cases hie : ((filesNamed files m).filter fun f => f.ext == FileExt.fin).isEmpty = true
    · rw [if_pos hie] at heq
      exact Option.noConfusion heq
    · rw [if_neg hie] at heq
      have hmn : m = n := by
        have h := Option.some.inj heq
        exact (Prod.ext_iff.mp h).1
      subst hmn
      have hne : ((filesNamed files m).filter fun f => f.ext == FileExt.fin) ≠ [] := by
        intro hnil
        rw [hnil] at hie
        exact hie rfl
      obtain ⟨f, hfmem⟩ := List.exists_mem_of_ne_nil _ hne
      rw [List.mem_filter] at hfmem
      obtain ⟨hf1, hf2⟩ := hfmem
      unfold filesNamed at hf1
      rw [List.mem_filter] at hf1
      obtain ⟨hf3, hf4⟩ := hf1
      exact hno_input f hf3 (by simpa using hf4) (by simpa using hf2)
  · have hn_mem : n ∈ testFileNames files := by
      unfold testFileNames
      rw [List.mem_dedup, List.mem_map]
      rw [List.any_eq_true] at h1
      obtain ⟨f, hf, hfn⟩ := h1
      exact ⟨f, hf, by simpa using hfn⟩
    have hgrp : (n, filesNamed files n) ∈ constructGroups files := by
      unfold constructGroups
      rw [List.mem_map]
      exact ⟨n, hn_mem, rfl⟩
    have hpred : (!((filesNamed files n).any fun f => f.ext == FileExt.fin)) = true := by
      rw [Bool.not_eq_true']
      by_contra hany
      have hany' : ((filesNamed files n).any fun f => f.ext == FileExt.fin) = true := by
        cases h : (filesNamed files n).any fun f => f.ext == FileExt.fin
        · exact absurd h hany
        · rfl
      rw [List.any_eq_true] at hany'
      obtain ⟨f, hf, hfe⟩ := hany'
      unfold filesNamed at hf
      rw [List.mem_filter] at hf
      exact hno_input f hf.1 (by simpa using hf.2) (by simpa using hfe)
    have hsome : ((constructGroups files).find?
        (fun g => !(g.2.any fun f => f.ext == FileExt.fin))).isSome = true := by
      rw [List.find?_isSome]
      exact ⟨(n, filesNamed files n), hgrp, hpred⟩
    cases hfind : (constructGroups files).find?
        (fun g => !(g.2.any fun f => f.ext == FileExt.fin)) with
    | none =>
        rw [hfind] at hsome
        exact Bool.noConfusion hsome
    | some g =>
        simp only [construct_relationship_of_files]
        rw [hfind]
        exact ⟨_, rfl⟩

/-- C5 witness for `dangling_fixture_skipped_and_helper_aborts`, at the
directory `[a.ans, b.in]` with dangling name `a`. -/
theorem dangling_fixture_skipped_witness :
    isDangling [TestFile.mk "a" FileExt.fans, TestFile.mk "b" FileExt.fin] "a" = true ∧
      ((∀ paths, ("a", paths) ∉
          glob_with_format [TestFile.mk "a" FileExt.fans, TestFile.mk "b" FileExt.fin]) ∧
        (∃ msg, construct_relationship_of_files
          [TestFile.mk "a" FileExt.fans, TestFile.mk "b" FileExt.fin] = Except.error msg)) :=
  ⟨by decide, dangling_fixture_skipped_and_helper_aborts _ _ (by decide)⟩

/-- C6: the harness evaluates every collected case exactly once and its exit
code is 0 exactly when at least one case was collected and every case's
verdict is AC; it is 1 exactly when no case was collected or some case's
verdict is not AC (`test.py` lines 514-516 and 563-573). -/
theorem exit_code_zero_iff_all_ac {α : Type} (eval_one : α → JudgeStatus)
    (tests : List α) :
    (run_tests eval_one tests).length = tests.length ∧
      (run_exit_code (run_tests eval_one tests) = 0 ↔
        tests ≠ [] ∧ ∀ t ∈ tests, eval_one t = JudgeStatus.AC) ∧
      (run_exit_code (run_tests eval_one tests) = 1 ↔
        tests = [] ∨ ∃ t ∈ tests, eval_one t ≠ JudgeStatus.AC) := by
  have hcnt : (tests.map eval_one).countP (fun s => s == JudgeStatus.AC) =
      (tests.map eval_one).length ↔ ∀ t ∈ tests, eval_one t = JudgeStatus.AC := by
    rw [List.countP_eq_length]
    constructor
    · intro h t ht
      simpa using h (eval_one t) (List.mem_map_of_mem _ ht)
    · intro h s hs
      rw [List.mem_map] at hs
      obtain ⟨t, ht, rfl⟩ := hs
      simpa using h t ht
  refine ⟨List.length_map _ _, ?_, ?_⟩
  · unfold run_exit_code run_tests
    by_cases hts : tests = []
    · subst hts
      simp
    · have hemp : ¬((tests.map eval_one).isEmpty = true) := fun h =>
        hts (List.map_eq_nil_iff.mp (List.isEmpty_iff.mp h))
      rw [if_neg hemp]
      by_cases hall : ∀ t ∈ tests, eval_one t = JudgeStatus.AC
      · rw [if_neg (fun hne => hne (hcnt.mpr hall))]
        exact iff_of_true rfl ⟨hts, hall⟩
      · rw [if_pos (fun heq => hall (hcnt.mp heq))]
        exact iff_of_false (by simp) (fun hc => hall hc.2)
  · unfold run_exit_code run_tests
    by_cases hts : tests = []
    · subst hts
      simp
    · have hemp : ¬((tests.map eval_one).isEmpty = true) := fun h =>
        hts (List.map_eq_nil_iff.mp (List.isEmpty_iff.mp h))
      rw [if_neg hemp]
      by_cases hall : ∀ t ∈ tests, eval_one t = JudgeStatus.AC
      · rw [if_neg (fun hne => hne (hcnt.mpr hall))]
        refine iff_of_false (by simp) ?_
        rintro (h | ⟨t, ht, hne⟩)
        · exact hts h
        · exact hne (hall t ht)
      · rw [if_pos (fun heq => hall (hcnt.mp heq))]
        push_neg at hall
        exact iff_of_true rfl (Or.inr hall)

/-- C7: when a special judge is configured the match function is exactly "the
judge process, invoked with the three positional arguments input path,
temporary actual-output path, and expected-output path or empty string,
exited with code 0" — for every compare mode and tolerance (full
replacement), ignoring the expected bytes it is given, and depending only on
the judge's exit code, never on the judge's own emitted output. -/
theorem special_judge_replaces_comparator (j : List String → Bytes → JudgeResult)
    (mode : CompareMode) (err : Option ℚ) (ip tp : String) (op : Option String)
    (actual expected : Bytes) :
    build_match_function (some j) mode err ip op tp actual expected =
        ((j (special_judge_args ip tp op) actual).exitcode == 0) ∧
      special_judge_args ip tp op = [ip, tp, op.getD ""] :=
  ⟨rfl, rfl⟩

/-- C8 counterexample: a process that completed with exit code 1 but whose
comparison failed gets verdict WA, not RE — the WA override in
`display_result` (`test.py` line 260) replaces the RE status. -/
theorem nonzero_exit_mismatch_gives_wa :
    display_result (some 1) none none (some false) = JudgeStatus.WA ∧
      JudgeStatus.WA ≠ JudgeStatus.RE := by
  constructor
  · rfl
  · decide

/-- C8, amended: a case completed with a nonzero exit code is never AC — a
successful comparison never upgrades it — and its verdict is RE whenever
additionally no memory-limit violation is flagged and the comparison result
is not `false` (in particular whenever the comparison succeeded); a failing
comparison yields WA and a memory violation MLE instead. -/
theorem nonzero_exit_never_ac (c : Int) (memory mle : Option ℚ) (mr : Option Bool)
    (h : c ≠ 0) :
    display_result (some c) memory mle mr ≠ JudgeStatus.AC ∧
      (memExceeds memory mle = false → mr ≠ some false →
        display_result (some c) memory mle mr = JudgeStatus.RE) := by
  unfold display_result
  have hne : (some c : Option Int) ≠ none := by simp
  have hne0 : (some c : Option Int) ≠ some 0 := by simpa using h
  constructor
  · by_cases hm : memExceeds memory mle <;> by_cases hr : mr = some false <;>
      simp [hne, hne0, hm, hr]
  · intro hm hr
    simp [hne, hne0, hm, hr]

/-- C8 witness for `nonzero_exit_never_ac`, at exit code 1, no memory data,
successful comparison. -/
theorem nonzero_exit_never_ac_witness :
    (1 : Int) ≠ 0 ∧
      (display_result (some 1) none none (some true) ≠ JudgeStatus.AC ∧
        (memExceeds none none = false → (some true : Option Bool) ≠ some false →
          display_result (some 1) none none (some true) = JudgeStatus.RE)) :=
  ⟨by decide, nonzero_exit_never_ac 1 none none (some true) (by decide)⟩

/-- C9: for every compare mode and tolerance (without a special judge), the
comparison of a captured answer against the expected-output file contents
depends only on the two sides with leading and trailing whitespace removed —
`run_checking_output` right-strips both sides (lines 187-189) and
`compare_outputs` strips both ends (lines 151-152) before the selected
comparator runs, and the empty-expected rejection is itself invariant. -/
theorem comparison_invariant_under_strip (mode : CompareMode) (err : Option ℚ)
    (ip tp : String) (op : Option String) (a a' c c' : Bytes)
    (ha : stripB a = stripB a') (hc : stripB c = stripB c') :
    run_checking_output a (some c) false (build_match_function none mode err ip op tp) =
      run_checking_output a' (some c') false (build_match_function none mode err ip op tp) := by
  rw [run_checking_output_some, run_checking_output_some, build_match_function_none,
    compare_outputs_rstrip, compare_outputs_rstrip, ha, hc]

/-- C9 witness for `comparison_invariant_under_strip`: "1" versus " 1\n" as
actual, "1\n" versus "\t1" as expected, under the default mode. -/
theorem comparison_invariant_under_strip_witness :
    stripB [49] = stripB [32, 49, 10] ∧ stripB [49, 10] = stripB [9, 49] ∧
      run_checking_output [49] (some [49, 10]) false
          (build_match_function none CompareMode.crlf_insensitive_exact_match none "i"
            (some "o") "t") =
        run_checking_output [32, 49, 10] (some [9, 49]) false
          (build_match_function none CompareMode.crlf_insensitive_exact_match none "i"
            (some "o") "t") :=
  ⟨by decide, by decide,
    comparison_invariant_under_strip CompareMode.crlf_insensitive_exact_match none "i" "t"
      (some "o") [49] [32, 49, 10] [49, 10] [9, 49] (by decide) (by decide)⟩

/-- C10: for every compare mode and tolerance (without a special judge), an
expected-output file whose contents are empty or all whitespace can never be
accepted, whatever the actual output: `run_checking_output` right-strips the
contents to the empty byte string (lines 187) and `compare_outputs` rejects an
empty expected output before any comparator runs (lines 146-148). -/
theorem blank_expected_never_accepted (mode : CompareMode) (err : Option ℚ)
    (ip tp : String) (op : Option String) (answer c : Bytes)
    (h : ∀ b ∈ c, isSpaceB b = true) :
    run_checking_output answer (some c) false
        (build_match_function none mode err ip op tp) = some false := by
  rw [run_checking_output_some, build_match_function_none, compare_outputs_rstrip,
    if_pos (stripB_eq_nil_iff.mpr h)]

/-- C10 witness for `blank_expected_never_accepted`: expected file contents
" \n" (whitespace only) against an empty actual output, default mode. -/
theorem blank_expected_never_accepted_witness :
    (∀ b ∈ ([32, 10] : Bytes), isSpaceB b = true) ∧
      run_checking_output [] (some [32, 10]) false
          (build_match_function none CompareMode.crlf_insensitive_exact_match none "i"
            (some "o") "t") = some false :=
  ⟨by decide,
    blank_expected_never_accepted CompareMode.crlf_insensitive_exact_match none "i" "t"
      (some "o") [] [32, 10] (by decide)⟩
